import Mathlib

/-!
Shallow embedding of `gitlab_export_import.py` (class `GitlabImportExport`):
the data model, the externally visible effects, and the orchestration
functions, together with proofs about the claims of the specification.

Modelling conventions:
* filesystem paths are lists of path components;
* Python exceptions are the `Halt` inductive; a run of a method is a `Run`:
  the ordered trace of externally visible effects plus its outcome;
* remote GitLab behaviour (lookups, job creation, job-status sequences,
  download and upload success) is an explicit environment record;
* the float `delay_seconds` is modelled as a rational number (only the
  comparison with 1 and the stored value matter to the program);
* polling loops take explicit fuel; running out of fuel yields `Halt.fuelOut`,
  which models the unbounded Python `while` loop not having terminated yet;
* pure log lines at INFO and DEBUG level are elided from traces, except the
  final completion log of a project import; ERROR and WARNING logs are kept.
-/

/-- Python exceptions that are raised or handled in the program. -/
inductive Halt where
  | runtimeError (msg : String)
  | attributeError (msg : String)
  | assertionError (msg : String)
  | gitlabError (msg : String)
  | stopIteration
  | fileNotFoundError (path : String)
  | keyError (key : String)
  | fuelOut
  deriving DecidableEq

/-- Externally visible effects of the orchestrator: remote API calls,
filesystem reads and writes, sleeps, and the log lines relevant to claims. -/
inductive Event where
  | apiGetGroup (path : String)
  | apiGetProject (pathWithNamespace : String)
  | apiCreateGroupExport
  | apiCreateProjectExport
  | apiStatusFetch
  | sleepDelay
  | apiDownload (target : List String)
  | apiImportGroup (file : String) (path name parentId : String)
  | apiUploadProject (file : List String) (name slug ns : String)
  | importFinished
  | fsWriteArchive (path : List String)
  | fsWriteMetadata (path : List String) (entries : List (String × String))
  | fsReadMetadata (path : List String)
  | logError (msg : String)
  | logWarning (msg : String)
  deriving DecidableEq

/-- A remote Group or Project object, and equally a parsed metadata JSON
dictionary: the seven attributes `_write_metadata_file` serializes, each
possibly absent.  Attribute values other than `id` are kept as strings. -/
structure GitlabObject where
  id : Option Int
  parent_id : Option String
  created_at : Option String
  name : Option String
  full_name : Option String
  path : Option String
  full_path : Option String
  deriving DecidableEq

/-- The outcome of running a piece of the program: the ordered effect trace
and either a value or an escaping exception. -/
structure Run (α : Type) where
  trace : List Event
  result : Except Halt α

instance (ε α : Type) [DecidableEq ε] [DecidableEq α] : DecidableEq (Except ε α) :=
  fun x y =>
    match x, y with
    | .ok a, .ok b =>
      if h : a = b then .isTrue (by rw [h])
      else .isFalse (by intro hh; cases hh; exact h rfl)
    | .ok _, .error _ => .isFalse (by intro hh; cases hh)
    | .error _, .ok _ => .isFalse (by intro hh; cases hh)
    | .error e, .error f =>
      if h : e = f then .isTrue (by rw [h])
      else .isFalse (by intro hh; cases hh; exact h rfl)

instance (α : Type) [DecidableEq α] : DecidableEq (Run α) :=
  fun x y =>
    if h1 : x.trace = y.trace then
      if h2 : x.result = y.result then
        .isTrue (by cases x; cases y; simp_all)
      else .isFalse (by intro h; cases h; exact h2 rfl)
    else .isFalse (by intro h; cases h; exact h1 rfl)

/-- Python `str(x)` for an optional integer: `str(None)` is the string
`"None"` (line 368 of the source applies `str` to `gitlab_group_parent_id`). -/
def pyStr : Option Int → String
  | none => "None"
  | some i => toString i

/-- Dictionary access `metadata[key]`: raises `KeyError` when absent. -/
def dictGet (v : Option String) (key : String) : Except Halt String :=
  match v with
  | some s => .ok s
  | none => .error (.keyError key)

/-- Embeds `Path.with_name(f"{path.name}.json")`: append `.json` to the last
path component (source line 402). -/
def withNameJson : List String → List String
  | [] => []
  | [x] => [x ++ ".json"]
  | x :: y :: rest => x :: withNameJson (y :: rest)

/-- Embeds `str(...)` of a `pathlib.Path` with components `parts`, using the
host path separator `sep` (on Windows a backslash). -/
def pathStr (sep : String) : List String → String
  | [] => "."
  | [p] => p
  | p :: q :: rest => p ++ (sep ++ pathStr sep (q :: rest))

/-- Embeds `namespace.replace("\\", "/")` (source line 312): a single-character
pattern replacement mapping every backslash to a forward slash. -/
def normalizeSeparators (s : String) : String :=
  ⟨s.data.map (fun c => if c = '\\' then '/' else c)⟩

/-- Embeds the namespace computation of `_import_projects`, source lines
308 to 316: join the root-group path with the walk-relative directory using
the host separator, normalize separators to `/`, and prepend the CLI
destination root when one was given (Python string truthiness). -/
def computeNamespace (sep main_group_path : String) (root_relative : List String)
    (gitlab_root : String) : String :=
  let ns0 := pathStr sep (main_group_path :: root_relative)
  let ns1 := normalizeSeparators ns0
  if gitlab_root ≠ "" then gitlab_root ++ "/" ++ ns1 else ns1

/-- Embeds the metadata dictionary built by `_write_metadata_file` (source
lines 414 to 420): the seven keys in order, keeping only present attributes. -/
def collectMetadata (obj : GitlabObject) : List (String × String) :=
  List.filterMap (fun kv => Option.map (fun v => (kv.1, v)) kv.2)
    [("id", Option.map toString obj.id), ("parent_id", obj.parent_id),
     ("created_at", obj.created_at), ("name", obj.name),
     ("full_name", obj.full_name), ("path", obj.path),
     ("full_path", obj.full_path)]

/-- The orchestrator object: the constructor stores the Gitlab connection
(elided), the poll delay and the export folder (source lines 90 to 95). -/
structure GitlabImportExport where
  delay_seconds : ℚ
  export_folder : List String
  deriving DecidableEq

/-- Embeds `GitlabImportExport.__init__`: `assert delay_seconds >= 1`, then
store the delay and the export folder unchanged. -/
def GitlabImportExport.init (export_folder : List String) (delay_seconds : ℚ) :
    Except Halt GitlabImportExport :=
  if 1 ≤ delay_seconds then .ok ⟨delay_seconds, export_folder⟩
  else .error (.assertionError "Delay between download checks must be a meaningful duration!")

/-- Embeds `_write_metadata_file` (source lines 412 to 425): collect present
attributes, `assert "name" in metadata`, `assert "path" in metadata`, then
write the JSON file. -/
def GitlabImportExport.write_metadata_file (obj : GitlabObject) (filepath : List String) :
    Run Unit :=
  let metadata := collectMetadata obj
  if metadata.any (fun kv => kv.1 == "name") = false then
    ⟨[], .error (.assertionError "name")⟩
  else if metadata.any (fun kv => kv.1 == "path") = false then
    ⟨[], .error (.assertionError "path")⟩
  else ⟨[.fsWriteMetadata filepath metadata], .ok ()⟩

/-- Remote behaviour visible to `export_project`: whether `exports.create()`
together with the first `refresh()` succeeds, the export status seen after
the i-th status fetch, an optional fetch index whose `refresh()` raises a
`GitlabError`, and whether the archive download succeeds. -/
structure ProjectExportEnv where
  createOk : Bool
  statusAt : Nat → String
  pollErrorAt : Option Nat
  downloadOk : Bool

/-- Embeds the polling loop of `export_project` (source lines 132 to 135):
the status seen after fetch `i` is inspected; while it is not `"finished"`
the loop sleeps and fetches again.  Returns `true` when the loop left
normally, `false` when a fetch raised a `GitlabError` (caught by the
caller), and runs out of fuel when the remote job never finishes. -/
def pollProjectExport (statusAt : Nat → String) (pollErrorAt : Option Nat) :
    Nat → Nat → Run Bool
  | 0, _ => ⟨[], .error .fuelOut⟩
  | fuel + 1, i =>
    if statusAt i = "finished" then ⟨[], .ok true⟩
    else
      let evs : List Event := [.sleepDelay, .apiStatusFetch]
      if pollErrorAt = some (i + 1) then ⟨evs, .ok false⟩
      else
        let r := pollProjectExport statusAt pollErrorAt fuel (i + 1)
        ⟨evs ++ r.trace, r.result⟩

/-- Embeds `export_project` (source lines 110 to 154): create the export job
and refresh once; on `GitlabError` log and return.  Poll until the status is
`"finished"`; on `GitlabError` log and return.  Attempt the archive download;
on any exception log and continue.  Finally write the sidecar metadata file
unconditionally. -/
def GitlabImportExport.export_project (env : ProjectExportEnv) (proj : GitlabObject)
    (output_path : List String) (fuel : Nat) : Run Unit :=
  if env.createOk = false then
    ⟨[.apiCreateProjectExport, .logError "Problem creating export"], .ok ()⟩
  else
    let pre : List Event := [.apiCreateProjectExport, .apiStatusFetch]
    let poll := pollProjectExport env.statusAt env.pollErrorAt fuel 0
    match poll.result with
    | .error e => ⟨pre ++ poll.trace, .error e⟩
    | .ok false => ⟨pre ++ poll.trace ++ [.logError "Problem getting status"], .ok ()⟩
    | .ok true =>
      match proj.path with
      | none => ⟨pre ++ poll.trace, .error (.attributeError "path")⟩
      | some p =>
        let archive := output_path ++ ["project_" ++ p ++ ".tar.gz"]
        let dl : List Event :=
          if env.downloadOk then [.apiDownload archive, .fsWriteArchive archive]
          else [.apiDownload archive, .logError "Problem while downloading"]
        let md := GitlabImportExport.write_metadata_file proj (withNameJson archive)
        ⟨pre ++ poll.trace ++ dl ++ md.trace, md.result⟩

/-- Remote behaviour visible to `_export_group`: group lookup by path,
whether `group.exports.create()` succeeds, and whether the group archive
download succeeds. -/
structure GroupExportEnv where
  lookupGroup : String → Option GitlabObject
  createGroupExportOk : Bool
  groupDownloadOk : Bool

/-- Embeds `_export_group` (source lines 156 to 191): look up the group and
raise `RuntimeError` when absent; create the group export job, logging (but
not returning) on `GitlabError` so that `exporter` stays `None`; sleep once;
then download the archive.  When the create failed, `exporter.download`
dereferences `None` and an `AttributeError` escapes.  On success the group
archive and the `metadata.json` file are written into the subdirectory named
by the group path, which is also the new export folder. -/
def GitlabImportExport.export_group (env : GroupExportEnv) (export_folder : List String)
    (gitlab_path : String) : Run (GitlabObject × List String) :=
  match env.lookupGroup gitlab_path with
  | none => ⟨[.apiGetGroup gitlab_path], .error (.runtimeError ("No such group: " ++ gitlab_path))⟩
  | some group =>
    let createEvs : List Event :=
      if env.createGroupExportOk then [.apiGetGroup gitlab_path, .apiCreateGroupExport]
      else [.apiGetGroup gitlab_path, .apiCreateGroupExport, .logError "Problem creating export"]
    let evs := createEvs ++ [.sleepDelay]
    match group.path with
    | none => ⟨evs, .error (.attributeError "path")⟩
    | some gpath =>
      let folder := export_folder ++ [gpath]
      let archive := folder ++ ["group_" ++ gpath ++ ".tar.gz"]
      if env.createGroupExportOk = false then
        ⟨evs, .error (.attributeError "NoneType object has no attribute download")⟩
      else if env.groupDownloadOk = false then
        ⟨evs ++ [.apiDownload archive], .error (.gitlabError "download")⟩
      else
        let md := GitlabImportExport.write_metadata_file group (folder ++ ["metadata.json"])
        ⟨evs ++ [.apiDownload archive, .fsWriteArchive archive] ++ md.trace,
         match md.result with
         | .error e => .error e
         | .ok _ => .ok (group, folder)⟩

/-- One directory yielded by `os.walk` over the export folder: its path
relative to the export folder (empty for the export folder itself) and the
plain file names it contains. -/
structure WalkDir where
  rel : List String
  files : List String

/-- Remote and filesystem behaviour visible to the import phase: the host
path separator, whether `metadata.json` exists in the export folder and its
parsed content, the `group_*.tar.gz` glob matches, group lookup by path, the
`os.walk` directory listing, the parsed content of project metadata files by
path, project existence by full path, the import id returned by a project
upload (`none` models a `GitlabError`), the import status seen after the
i-th status fetch, and an optional fetch index that raises. -/
structure ImportEnv where
  sep : String
  metadataExists : Bool
  rootMetadata : GitlabObject
  groupArchives : List String
  lookupGroup : String → Option GitlabObject
  walkDirs : List WalkDir
  projectMetadata : List String → Option GitlabObject
  projectExists : String → Bool
  uploadResult : Option Int
  importStatusAt : Nat → String
  importPollErrorAt : Option Nat

/-- Embeds the polling loop of `__import_project_wait_done` (source lines
270 to 273), of the same shape as the export polling loop: while the status
seen after fetch `i` is not `"finished"`, sleep and fetch again. -/
def pollImportStatus (statusAt : Nat → String) (pollErrorAt : Option Nat) :
    Nat → Nat → Run Bool
  | 0, _ => ⟨[], .error .fuelOut⟩
  | fuel + 1, i =>
    if statusAt i = "finished" then ⟨[], .ok true⟩
    else
      let evs : List Event := [.sleepDelay, .apiStatusFetch]
      if pollErrorAt = some (i + 1) then ⟨evs, .ok false⟩
      else
        let r := pollImportStatus statusAt pollErrorAt fuel (i + 1)
        ⟨evs ++ r.trace, r.result⟩

/-- Embeds `__import_project_wait_done` (source lines 266 to 277): fetch
the job once, poll until `"finished"`, then log the completion; any
`GitlabError` in the body is caught and logged. -/
def GitlabImportExport.import_project_wait_done (env : ImportEnv) (fuel : Nat) : Run Unit :=
  if env.importPollErrorAt = some 0 then
    ⟨[.apiStatusFetch, .logError "Problem importing project"], .ok ()⟩
  else
    let r := pollImportStatus env.importStatusAt env.importPollErrorAt fuel 0
    match r.result with
    | .error e => ⟨[.apiStatusFetch] ++ r.trace, .error e⟩
    | .ok false => ⟨[.apiStatusFetch] ++ r.trace ++ [.logError "Problem importing project"], .ok ()⟩
    | .ok true => ⟨[.apiStatusFetch] ++ r.trace ++ [.importFinished], .ok ()⟩

/-- Embeds `import_project` together with `__import_project_upload` (source
lines 243 to 264): upload the archive; on `GitlabError` log and return with
no import id; otherwise wait for the remote import job. -/
def GitlabImportExport.import_project (env : ImportEnv) (filepath : List String)
    (name slug ns : String) (fuel : Nat) : Run Unit :=
  let up : List Event := [.apiUploadProject filepath name slug ns]
  match env.uploadResult with
  | none => ⟨up ++ [.logError "Problem importing project"], .ok ()⟩
  | some _ =>
    let w := GitlabImportExport.import_project_wait_done env fuel
    ⟨up ++ w.trace, w.result⟩

/-- Embeds `_import_project` (source lines 279 to 293): read the sidecar
metadata file, take `path` and `name` from it, build `namespace/slug`; when
a project already exists at that full path, warn and return; otherwise
upload and wait. -/
def GitlabImportExport.import_project_from_file (env : ImportEnv) (filepath : List String)
    (ns : String) (fuel : Nat) : Run Unit :=
  let mdPath := withNameJson filepath
  let readEv : List Event := [.fsReadMetadata mdPath]
  match env.projectMetadata mdPath with
  | none => ⟨readEv, .error (.fileNotFoundError (pathStr "/" mdPath))⟩
  | some md =>
    match dictGet md.path "path" with
    | .error e => ⟨readEv, .error e⟩
    | .ok slug =>
      match dictGet md.name "name" with
      | .error e => ⟨readEv, .error e⟩
      | .ok name =>
        let pw := ns ++ "/" ++ slug
        let getEvs := readEv ++ [.apiGetProject pw]
        if env.projectExists pw then
          ⟨getEvs ++ [.logWarning ("Skipping already existing project: " ++ pw)], .ok ()⟩
        else
          let ip := GitlabImportExport.import_project env filepath name slug ns fuel
          ⟨getEvs ++ ip.trace, ip.result⟩

/-- Embeds the inner file loop of `_import_projects` (source lines 320 to
328): skip JSON files and group archives, warn on anything that is not a
project archive, and import each project archive. -/
def GitlabImportExport.filesLoop (env : ImportEnv) (dir : List String) (ns : String)
    (fuel : Nat) : List String → Run Unit
  | [] => ⟨[], .ok ()⟩
  | f :: rest =>
    if f.endsWith ".json" || (f.startsWith "group_" && f.endsWith ".tar.gz") then
      GitlabImportExport.filesLoop env dir ns fuel rest
    else if !(f.startsWith "project_" && f.endsWith ".tar.gz") then
      let r := GitlabImportExport.filesLoop env dir ns fuel rest
      ⟨[.logWarning ("Skipping non-project archive: " ++ f)] ++ r.trace, r.result⟩
    else
      let p := GitlabImportExport.import_project_from_file env (dir ++ [f]) ns fuel
      match p.result with
      | .error e => ⟨p.trace, .error e⟩
      | .ok _ =>
        let r := GitlabImportExport.filesLoop env dir ns fuel rest
        ⟨p.trace ++ r.trace, r.result⟩

/-- Embeds the directory walk of `_import_projects` (source lines 304 to
328): for every walked directory compute its namespace and process its
files. -/
def GitlabImportExport.walkLoop (env : ImportEnv) (export_folder : List String)
    (gitlab_root main_group_path : String) (fuel : Nat) : List WalkDir → Run Unit
  | [] => ⟨[], .ok ()⟩
  | d :: rest =>
    let ns := computeNamespace env.sep main_group_path d.rel gitlab_root
    let fl := GitlabImportExport.filesLoop env (export_folder ++ d.rel) ns fuel d.files
    match fl.result with
    | .error e => ⟨fl.trace, .error e⟩
    | .ok _ =>
      let r := GitlabImportExport.walkLoop env export_folder gitlab_root main_group_path fuel rest
      ⟨fl.trace ++ r.trace, r.result⟩

/-- Embeds `_import_projects` (source lines 295 to 328): read the root group
metadata file (raising `FileNotFoundError` when it is absent, since there is
no existence check here), take the root group path from it, then walk the
export folder importing project archives. -/
def GitlabImportExport.import_projects (env : ImportEnv) (export_folder : List String)
    (gitlab_root : String) (fuel : Nat) : Run Unit :=
  let readEv : List Event := [.fsReadMetadata (export_folder ++ ["metadata.json"])]
  if env.metadataExists = false then
    ⟨readEv, .error (.fileNotFoundError "metadata.json")⟩
  else
    match dictGet env.rootMetadata.path "path" with
    | .error e => ⟨readEv, .error e⟩
    | .ok main_group_path =>
      let w := GitlabImportExport.walkLoop env export_folder gitlab_root main_group_path
        fuel env.walkDirs
      ⟨readEv ++ w.trace, w.result⟩

/-- Embeds source lines 360 to 372 of `_import_groups`: take the first
`group_*.tar.gz` glob match (`next` of an empty iterator raises
`StopIteration`), then issue the single group-import call; the parent id is
passed through Python `str`, so an absent parent becomes the string
`"None"`. -/
def GitlabImportExport.importGroupArchive (env : ImportEnv) (name path : String)
    (parentId : Option Int) : Run Bool :=
  match env.groupArchives with
  | [] => ⟨[], .error .stopIteration⟩
  | f :: _ => ⟨[.apiImportGroup f path name (pyStr parentId)], .ok true⟩

/-- Embeds source lines 334 to 372 of `_import_groups`, after the export
folder check: read name and path from the root metadata, resolve the
destination root group when one was given (returning `False` when it does
not exist), then import the group archive. -/
def GitlabImportExport.importGroupsAfterCheck (env : ImportEnv) (gitlab_root : String) :
    Run Bool :=
  match dictGet env.rootMetadata.name "name" with
  | .error e => ⟨[], .error e⟩
  | .ok main_group_name =>
    match dictGet env.rootMetadata.path "path" with
    | .error e => ⟨[], .error e⟩
    | .ok main_group_path =>
      if gitlab_root ≠ "" then
        match env.lookupGroup gitlab_root with
        | none => ⟨[.apiGetGroup gitlab_root, .logError "No such group"], .ok false⟩
        | some g =>
          match g.id with
          | none => ⟨[.apiGetGroup gitlab_root], .error (.attributeError "id")⟩
          | some gid =>
            let r := GitlabImportExport.importGroupArchive env main_group_name
              main_group_path (some gid)
            ⟨[.apiGetGroup gitlab_root] ++ r.trace, r.result⟩
      else GitlabImportExport.importGroupArchive env main_group_name main_group_path none

/-- Embeds `_import_groups` (source lines 330 to 372): `__check_is_export_folder`
raises `RuntimeError` when `metadata.json` is absent, before anything else
happens; otherwise the metadata file is read and the import proceeds. -/
def GitlabImportExport.import_groups (env : ImportEnv) (export_folder : List String)
    (gitlab_root : String) : Run Bool :=
  if env.metadataExists = false then
    ⟨[], .error (.runtimeError "Path has no metadata file metadata.json!")⟩
  else
    let rest := GitlabImportExport.importGroupsAfterCheck env gitlab_root
    ⟨[.fsReadMetadata (export_folder ++ ["metadata.json"])] ++ rest.trace, rest.result⟩

/-- Embeds `importing` (source lines 235 to 241): unless `no_groups` is set,
run the group phase first and stop when it returned `False`; then run the
project phase. -/
def GitlabImportExport.importing (env : ImportEnv) (export_folder : List String)
    (gitlab_root : String) (no_groups : Bool) (fuel : Nat) : Run Unit :=
  if no_groups = false then
    let g := GitlabImportExport.import_groups env export_folder gitlab_root
    match g.result with
    | .error e => ⟨g.trace, .error e⟩
    | .ok false => ⟨g.trace, .ok ()⟩
    | .ok true =>
      let p := GitlabImportExport.import_projects env export_folder gitlab_root fuel
      ⟨g.trace ++ p.trace, p.result⟩
  else GitlabImportExport.import_projects env export_folder gitlab_root fuel

/-! Helper lemmas about the embedded operations. -/

/-- The export polling loop emits only sleeps and status fetches. -/
theorem pollProjectExport_trace_mem (s : Nat → String) (pe : Option Nat) :
    ∀ (f i : Nat), ∀ e ∈ (pollProjectExport s pe f i).trace,
      e = Event.sleepDelay ∨ e = Event.apiStatusFetch := by
  intro f
  induction f with
  | zero => intro i e he; simp [pollProjectExport] at he
  | succ n ih =>
    intro i e he
    simp only [pollProjectExport] at he
    split at he
    · simp at he
    · split at he
      · simp at he
        rcases he with h | h <;> simp [h]
      · simp at he
        rcases he with h | h | h
        · simp [h]
        · simp [h]
        · exact ih (i + 1) e h

/-- The export polling loop only exits normally at a `"finished"` status. -/
theorem pollProjectExport_ok_finished (s : Nat → String) (pe : Option Nat) :
    ∀ (f i : Nat), (pollProjectExport s pe f i).result = .ok true →
      ∃ k, i ≤ k ∧ s k = "finished" := by
  intro f
  induction f with
  | zero => intro i h; simp [pollProjectExport] at h
  | succ n ih =>
    intro i h
    simp only [pollProjectExport] at h
    split at h
    · exact ⟨i, le_refl i, by assumption⟩
    · split at h
      · simp at h
      · obtain ⟨k, hk, hf⟩ := ih (i + 1) h
        exact ⟨k, by omega, hf⟩

/-- The import polling loop only exits normally at a `"finished"` status. -/
theorem pollImportStatus_ok_finished (s : Nat → String) (pe : Option Nat) :
    ∀ (f i : Nat), (pollImportStatus s pe f i).result = .ok true →
      ∃ k, i ≤ k ∧ s k = "finished" := by
  intro f
  induction f with
  | zero => intro i h; simp [pollImportStatus] at h
  | succ n ih =>
    intro i h
    simp only [pollImportStatus] at h
    split at h
    · exact ⟨i, le_refl i, by assumption⟩
    · split at h
      · simp at h
      · obtain ⟨k, hk, hf⟩ := ih (i + 1) h
        exact ⟨k, by omega, hf⟩

/-- A present `name` attribute ends up in the collected metadata entries. -/
theorem mem_collectMetadata_name (obj : GitlabObject) (nm : String)
    (h : obj.name = some nm) : ("name", nm) ∈ collectMetadata obj := by
  simp only [collectMetadata, List.mem_filterMap]
  exact ⟨("name", obj.name), by simp, by simp [h]⟩

/-- A present `path` attribute ends up in the collected metadata entries. -/
theorem mem_collectMetadata_path (obj : GitlabObject) (p : String)
    (h : obj.path = some p) : ("path", p) ∈ collectMetadata obj := by
  simp only [collectMetadata, List.mem_filterMap]
  exact ⟨("path", obj.path), by simp, by simp [h]⟩

/-- When `name` and `path` are present, `_write_metadata_file` writes exactly
one metadata file holding the collected entries, and its asserts pass. -/
theorem write_metadata_file_eq (obj : GitlabObject) (fp : List String) (nm p : String)
    (hn : obj.name = some nm) (hp : obj.path = some p) :
    GitlabImportExport.write_metadata_file obj fp =
      ⟨[.fsWriteMetadata fp (collectMetadata obj)], .ok ()⟩ := by
  have h1 : (collectMetadata obj).any (fun kv => kv.1 == "name") = true :=
    List.any_eq_true.mpr ⟨("name", nm), mem_collectMetadata_name obj nm hn, by simp⟩
  have h2 : (collectMetadata obj).any (fun kv => kv.1 == "path") = true :=
    List.any_eq_true.mpr ⟨("path", p), mem_collectMetadata_path obj p hp, by simp⟩
  simp [GitlabImportExport.write_metadata_file, h1, h2]

/-- Appending `.json` to the name of a path appends it to its last component. -/
theorem withNameJson_append : ∀ (out : List String) (s : String),
    withNameJson (out ++ [s]) = out ++ [s ++ ".json"]
  | [], _ => rfl
  | [_], _ => rfl
  | x :: y :: t, s => by
    have ih := withNameJson_append (y :: t) s
    simp only [List.cons_append] at ih ⊢
    simp only [withNameJson]
    rw [ih]

/-- Mapping backslashes away is the identity on backslash-free data. -/
theorem mapNoBackslash : ∀ (l : List Char), '\\' ∉ l →
    l.map (fun c => if c = '\\' then '/' else c) = l
  | [], _ => rfl
  | c :: cs, h => by
    simp at h
    simp [mapNoBackslash cs h.2]
    intro hc
    exact absurd hc.symm h.1

/-- Separator normalization distributes over string append. -/
theorem normalizeSeparators_append (s t : String) :
    normalizeSeparators (s ++ t) = normalizeSeparators s ++ normalizeSeparators t := by
  apply String.ext
  simp [normalizeSeparators, String.data_append]

/-- Separator normalization leaves backslash-free strings unchanged. -/
theorem normalizeSeparators_id (s : String) (h : '\\' ∉ s.data) :
    normalizeSeparators s = s := by
  apply String.ext
  simp only [normalizeSeparators]
  exact mapNoBackslash s.data h

/-- A string is backslash-free; path components of exported directories are. -/
def noBackslash (s : String) : Prop := '\\' ∉ s.data

instance (s : String) : Decidable (noBackslash s) :=
  inferInstanceAs (Decidable ('\\' ∉ s.data))

/-- C10: for every delay_seconds value strictly less than 1, constructing the
orchestrator fails with an assertion error; for every value greater than or
equal to 1, construction succeeds and that exact value is stored as the poll
interval. -/
theorem claim10_delay_assertion (folder : List String) (d : ℚ) :
    (d < 1 → GitlabImportExport.init folder d =
      .error (.assertionError "Delay between download checks must be a meaningful duration!")) ∧
    (1 ≤ d → GitlabImportExport.init folder d = .ok ⟨d, folder⟩) := by
  constructor
  · intro h
    simp [GitlabImportExport.init, not_le.mpr h]
  · intro h
    simp [GitlabImportExport.init, h]

/-- Witness for C10 at delay one half (rejected) and delay 15 (accepted). -/
theorem claim10_delay_assertion_witness :
    GitlabImportExport.init ["out"] (1 / 2) =
      .error (.assertionError "Delay between download checks must be a meaningful duration!") ∧
    GitlabImportExport.init ["out"] 15 = .ok ⟨15, ["out"]⟩ :=
  ⟨(claim10_delay_assertion ["out"] (1 / 2)).1 (by norm_num),
   (claim10_delay_assertion ["out"] 15).2 (by norm_num)⟩

/-- C4: for a directory at relative path `a/b` under the export root, with
root-group metadata path `main` and CLI destination root `dest`, the computed
namespace is `dest/root/a/b`; without a destination root it is `root/a/b`;
for the export root directory itself it is `dest/root`, respectively `root` —
with every host path separator normalized to a forward slash. -/
theorem claim4_namespace_computation (sep main dest a b : String)
    (hsep : sep = "/" ∨ sep = "\\")
    (hm : noBackslash main) (ha : noBackslash a) (hb : noBackslash b)
    (hd : dest ≠ "") :
    computeNamespace sep main [a, b] dest = dest ++ "/" ++ main ++ "/" ++ a ++ "/" ++ b ∧
    computeNamespace sep main [a, b] "" = main ++ "/" ++ a ++ "/" ++ b ∧
    computeNamespace sep main [] dest = dest ++ "/" ++ main ∧
    computeNamespace sep main [] "" = main := by
  have hsepn : normalizeSeparators sep = "/" := by
    rcases hsep with h | h <;> subst h <;> decide
  have hm' := normalizeSeparators_id main hm
  have ha' := normalizeSeparators_id a ha
  have hb' := normalizeSeparators_id b hb
  refine ⟨?_, ?_, ?_, ?_⟩ <;>
    simp [computeNamespace, pathStr, normalizeSeparators_append, hsepn, hm', ha', hb', hd,
      String.append_assoc]

/-- Witness for C4 on a Windows-style separator with concrete components. -/
theorem claim4_namespace_computation_witness :
    computeNamespace "\\" "root" ["a", "b"] "dest" =
      "dest" ++ "/" ++ "root" ++ "/" ++ "a" ++ "/" ++ "b" ∧
    computeNamespace "\\" "root" ["a", "b"] "" = "root" ++ "/" ++ "a" ++ "/" ++ "b" :=
  ⟨(claim4_namespace_computation "\\" "root" "dest" "a" "b" (Or.inr rfl)
      (by decide) (by decide) (by decide) (by decide)).1,
   (claim4_namespace_computation "\\" "root" "dest" "a" "b" (Or.inr rfl)
      (by decide) (by decide) (by decide) (by decide)).2.1⟩

/-- Root-group metadata used to exercise the group-import call. -/
def claim1Meta : GitlabObject :=
  ⟨some 10, none, none, some "Main Group", none, some "maingroup", some "maingroup"⟩

/-- Destination-root lookup: only the group `destroot` exists, with id 42. -/
def claim1Lookup : String → Option GitlabObject := fun r =>
  if r = "destroot" then
    some ⟨some 42, none, none, some "Dest", none, some "destroot", some "destroot"⟩
  else none

/-- Import environment for the group-import call: a valid export folder with
one group archive. -/
def claim1Env : ImportEnv :=
  ⟨"/", true, claim1Meta, ["group_maingroup.tar.gz"], claim1Lookup, [],
   fun _ => none, fun _ => false, none, fun _ => "finished", none⟩

/-- C1: the import-groups phase issues exactly one group-import request with
the root archive and the name and path from the metadata; with a destination
root it passes the resolved parent id — but without a destination root it
does NOT omit the parent id: it passes the Python string `str(None)`, that
is the literal string `"None"`, because line 368 applies `str` to the parent
id unconditionally.  This exhibits the divergence from the claim for the
top-level case. -/
theorem claim1_group_import_call :
    GitlabImportExport.import_groups claim1Env ["exp"] "" =
      ⟨[.fsReadMetadata ["exp", "metadata.json"],
        .apiImportGroup "group_maingroup.tar.gz" "maingroup" "Main Group" "None"],
       .ok true⟩ ∧
    GitlabImportExport.import_groups claim1Env ["exp"] "destroot" =
      ⟨[.fsReadMetadata ["exp", "metadata.json"], .apiGetGroup "destroot",
        .apiImportGroup "group_maingroup.tar.gz" "maingroup" "Main Group" "42"],
       .ok true⟩ := by
  constructor <;> decide

/-- Export environment in which creating the group export job raises a
`GitlabError`: the group itself exists and downloads would succeed. -/
def claim2Env : GroupExportEnv :=
  ⟨fun p => if p = "root" then
      some ⟨some 5, none, none, some "Root", none, some "root", some "root"⟩
    else none,
   false, true⟩

/-- C2: when creating the root group export job raises an API error, the
error is logged — but the phase is NOT abandoned cleanly: the code goes on
to dereference the `None` exporter and an unhandled `AttributeError` escapes
the export phase, contradicting the claim that processing continues without
an unhandled exception. -/
theorem claim2_group_export_failure :
    GitlabImportExport.export_group claim2Env ["out"] "root" =
      ⟨[.apiGetGroup "root", .apiCreateGroupExport, .logError "Problem creating export",
        .sleepDelay],
       .error (.attributeError "NoneType object has no attribute download")⟩ := by
  decide

/-- C5: when the computed full path `namespace/slug` resolves to an existing
project, importing the archive emits exactly a metadata read, the existence
lookup and a warning — no upload and no import job — so a re-run creates no
duplicate project. -/
theorem claim5_skip_existing_project (env : ImportEnv) (filepath : List String)
    (ns slug nm : String) (md : GitlabObject) (fl : Nat)
    (hmd : env.projectMetadata (withNameJson filepath) = some md)
    (hslug : md.path = some slug) (hname : md.name = some nm)
    (hex : env.projectExists (ns ++ "/" ++ slug) = true) :
    GitlabImportExport.import_project_from_file env filepath ns fl =
      ⟨[.fsReadMetadata (withNameJson filepath), .apiGetProject (ns ++ "/" ++ slug),
        .logWarning ("Skipping already existing project: " ++ (ns ++ "/" ++ slug))],
       .ok ()⟩ := by
  simp [GitlabImportExport.import_project_from_file, hmd, dictGet, hslug, hname, hex]

/-- Import environment where the project `grp/svc` already exists. -/
def claim5Env : ImportEnv :=
  ⟨"/", true, claim1Meta, [], fun _ => none, [],
   fun p => if p = ["exp", "project_svc.tar.gz.json"] then
       some ⟨some 3, none, none, some "Svc", none, some "svc", some "grp/svc"⟩
     else none,
   fun pw => pw = "grp/svc", some 7, fun _ => "finished", none⟩

/-- Witness for C5 at a concrete existing project. -/
theorem claim5_skip_existing_project_witness :
    GitlabImportExport.import_project_from_file claim5Env ["exp", "project_svc.tar.gz"] "grp" 5 =
      ⟨[.fsReadMetadata ["exp", "project_svc.tar.gz.json"], .apiGetProject "grp/svc",
        .logWarning ("Skipping already existing project: " ++ "grp/svc")],
       .ok ()⟩ :=
  claim5_skip_existing_project claim5Env ["exp", "project_svc.tar.gz"] "grp" "svc" "Svc"
    ⟨some 3, none, none, some "Svc", none, some "svc", some "grp/svc"⟩ 5
    (by decide) rfl rfl (by decide)

/-- C7: an export directory lacking `metadata.json` makes the import-groups
phase fail with the explicit `RuntimeError` and an empty effect trace — in
particular no remote API call happened; when `metadata.json` exists, the
check passes and the phase proceeds to read the metadata file. -/
theorem claim7_export_folder_check (env : ImportEnv) (folder : List String) (root : String) :
    (env.metadataExists = false →
      GitlabImportExport.import_groups env folder root =
        ⟨[], .error (.runtimeError "Path has no metadata file metadata.json!")⟩) ∧
    (env.metadataExists = true →
      (GitlabImportExport.import_groups env folder root).trace.head? =
        some (.fsReadMetadata (folder ++ ["metadata.json"]))) := by
  constructor
  · intro h
    simp [GitlabImportExport.import_groups, h]
  · intro h
    simp [GitlabImportExport.import_groups, h]

/-- Import environment with no `metadata.json` in the export folder. -/
def claim7EnvNo : ImportEnv :=
  ⟨"/", false, claim1Meta, [], fun _ => none, [], fun _ => none, fun _ => false,
   none, fun _ => "finished", none⟩

/-- Witness for C7: the rejection and the passing check, both concrete. -/
theorem claim7_export_folder_check_witness :
    GitlabImportExport.import_groups claim7EnvNo ["exp"] "" =
      ⟨[], .error (.runtimeError "Path has no metadata file metadata.json!")⟩ ∧
    (GitlabImportExport.import_groups claim1Env ["exp"] "").trace.head? =
      some (.fsReadMetadata ["exp", "metadata.json"]) :=
  ⟨(claim7_export_folder_check claim7EnvNo ["exp"] "").1 rfl,
   (claim7_export_folder_check claim1Env ["exp"] "").2 rfl⟩

/-- C8: a directory whose `metadata.json` exists but which holds no file
matching `group_*.tar.gz` passes the export-root validation, and then the
group-import phase raises `StopIteration` from `next` of an empty glob —
not the descriptive `RuntimeError` of the validation. -/
theorem claim8_empty_glob_stopiteration (env : ImportEnv) (folder : List String)
    (n p : String)
    (hmd : env.metadataExists = true)
    (hn : env.rootMetadata.name = some n) (hp : env.rootMetadata.path = some p)
    (hga : env.groupArchives = []) :
    GitlabImportExport.import_groups env folder "" =
      ⟨[.fsReadMetadata (folder ++ ["metadata.json"])], .error .stopIteration⟩ := by
  simp [GitlabImportExport.import_groups, hmd, GitlabImportExport.importGroupsAfterCheck,
    dictGet, hn, hp, GitlabImportExport.importGroupArchive, hga]

/-- Import environment of a subgroup directory: metadata present, no group
archive. -/
def claim8Env : ImportEnv :=
  ⟨"/", true, claim1Meta, [], fun _ => none, [], fun _ => none, fun _ => false,
   none, fun _ => "finished", none⟩

/-- Witness for C8 at a concrete subgroup-like directory. -/
theorem claim8_empty_glob_stopiteration_witness :
    GitlabImportExport.import_groups claim8Env ["exp", "sub1"] "" =
      ⟨[.fsReadMetadata ["exp", "sub1", "metadata.json"]], .error .stopIteration⟩ :=
  claim8_empty_glob_stopiteration claim8Env ["exp", "sub1"] "Main Group" "maingroup"
    rfl rfl rfl rfl

/-- C9: with the groups phase skipped, the export-directory validation is
bypassed: for a folder lacking `metadata.json` the run fails with the
uncaught `FileNotFoundError` of the projects phase reading the root
metadata, not with the explicit `RuntimeError` the groups phase produces. -/
theorem claim9_no_groups_bypasses_validation (env : ImportEnv) (folder : List String)
    (root : String) (fl : Nat) (hmd : env.metadataExists = false) :
    GitlabImportExport.importing env folder root true fl =
      ⟨[.fsReadMetadata (folder ++ ["metadata.json"])],
       .error (.fileNotFoundError "metadata.json")⟩ ∧
    GitlabImportExport.importing env folder root false fl =
      ⟨[], .error (.runtimeError "Path has no metadata file metadata.json!")⟩ := by
  constructor
  · simp [GitlabImportExport.importing, GitlabImportExport.import_projects, hmd]
  · simp [GitlabImportExport.importing, GitlabImportExport.import_groups, hmd]

/-- Witness for C9 at a concrete folder lacking `metadata.json`. -/
theorem claim9_no_groups_bypasses_validation_witness :
    GitlabImportExport.importing claim7EnvNo ["exp"] "" true 5 =
      ⟨[.fsReadMetadata ["exp", "metadata.json"]],
       .error (.fileNotFoundError "metadata.json")⟩ ∧
    GitlabImportExport.importing claim7EnvNo ["exp"] "" false 5 =
      ⟨[], .error (.runtimeError "Path has no metadata file metadata.json!")⟩ :=
  claim9_no_groups_bypasses_validation claim7EnvNo ["exp"] "" 5 rfl

/-- A simulated job reporting `"started"` twice, then `"finished"`. -/
def claim3Statuses : Nat → String := fun i => if i < 2 then "started" else "finished"

/-- Export environment with the simulated status sequence. -/
def claim3ExportEnv : ProjectExportEnv := ⟨true, claim3Statuses, none, true⟩

/-- The project being exported in the polling scenario. -/
def claim3Proj : GitlabObject :=
  ⟨some 1, none, none, some "Svc", none, some "svc", some "grp/svc"⟩

/-- Import environment with the simulated status sequence. -/
def claim3ImportEnv : ImportEnv :=
  ⟨"/", true, claim1Meta, [], fun _ => none, [], fun _ => none, fun _ => false,
   some 7, claim3Statuses, none⟩

/-- C3: both polling loops exit normally only at status `"finished"`; and on
the simulated job reporting `"started"`, `"started"`, `"finished"`, each loop
performs exactly three status fetches with one delay slept between
consecutive fetches, followed by exactly one archive download (export)
respectively one completion (import). -/
theorem claim3_polling_loops :
    (∀ (s : Nat → String) (pe : Option Nat) (f i : Nat),
        (pollProjectExport s pe f i).result = .ok true →
          ∃ k, i ≤ k ∧ s k = "finished") ∧
    (∀ (s : Nat → String) (pe : Option Nat) (f i : Nat),
        (pollImportStatus s pe f i).result = .ok true →
          ∃ k, i ≤ k ∧ s k = "finished") ∧
    GitlabImportExport.export_project claim3ExportEnv claim3Proj ["out"] 10 =
      ⟨[.apiCreateProjectExport, .apiStatusFetch, .sleepDelay, .apiStatusFetch,
        .sleepDelay, .apiStatusFetch, .apiDownload ["out", "project_svc.tar.gz"],
        .fsWriteArchive ["out", "project_svc.tar.gz"],
        .fsWriteMetadata ["out", "project_svc.tar.gz.json"] (collectMetadata claim3Proj)],
       .ok ()⟩ ∧
    (GitlabImportExport.export_project claim3ExportEnv claim3Proj ["out"] 10).trace.count
      .apiStatusFetch = 3 ∧
    (GitlabImportExport.export_project claim3ExportEnv claim3Proj ["out"] 10).trace.count
      (.apiDownload ["out", "project_svc.tar.gz"]) = 1 ∧
    GitlabImportExport.import_project_wait_done claim3ImportEnv 10 =
      ⟨[.apiStatusFetch, .sleepDelay, .apiStatusFetch, .sleepDelay, .apiStatusFetch,
        .importFinished],
       .ok ()⟩ ∧
    (GitlabImportExport.import_project_wait_done claim3ImportEnv 10).trace.count
      .apiStatusFetch = 3 ∧
    (GitlabImportExport.import_project_wait_done claim3ImportEnv 10).trace.count
      .importFinished = 1 :=
  ⟨pollProjectExport_ok_finished, pollImportStatus_ok_finished,
   by decide, by decide, by decide, by decide, by decide, by decide⟩

/-- Witness for C3: both only-finished properties applied to the simulated
status sequence. -/
theorem claim3_polling_loops_witness :
    (∃ k, 0 ≤ k ∧ claim3Statuses k = "finished") ∧
    (∃ k, 1 ≤ k ∧ claim3Statuses k = "finished") :=
  ⟨claim3_polling_loops.1 claim3Statuses none 10 0 (by decide),
   claim3_polling_loops.2.1 claim3Statuses none 10 1 (by decide)⟩

/-- C6: whenever a project export reaches the download step (job created and
polling finished), exactly one sidecar metadata file is written at the
archive path with `.json` appended — matching `project_<path>.tar.gz.json` —
its entries contain the `name` and `path` fields, and this holds whatever
the download outcome is, since the write follows the download attempt
unconditionally. -/
theorem claim6_sidecar_metadata (env : ProjectExportEnv) (proj : GitlabObject)
    (out : List String) (fl : Nat) (p nm : String)
    (hp : proj.path = some p) (hn : proj.name = some nm)
    (hc : env.createOk = true)
    (hpoll : (pollProjectExport env.statusAt env.pollErrorAt fl 0).result = .ok true) :
    ("name", nm) ∈ collectMetadata proj ∧
    ("path", p) ∈ collectMetadata proj ∧
    (GitlabImportExport.export_project env proj out fl).trace.count
      (.fsWriteMetadata (out ++ ["project_" ++ p ++ ".tar.gz.json"])
        (collectMetadata proj)) = 1 ∧
    (GitlabImportExport.export_project env proj out fl).result = .ok () := by
  have hjson : withNameJson (out ++ ["project_" ++ p ++ ".tar.gz"]) =
      out ++ ["project_" ++ p ++ ".tar.gz.json"] := by
    rw [withNameJson_append]
    have : ("project_" ++ p ++ ".tar.gz") ++ ".json" =
        "project_" ++ p ++ ".tar.gz.json" := by
      rw [String.append_assoc ("project_" ++ p) ".tar.gz" ".json"]
      rfl
    rw [this]
  have hwrite := write_metadata_file_eq proj
    (out ++ ["project_" ++ p ++ ".tar.gz.json"]) nm p hn hp
  have hrun : GitlabImportExport.export_project env proj out fl =
      ⟨[.apiCreateProjectExport, .apiStatusFetch] ++
        (pollProjectExport env.statusAt env.pollErrorAt fl 0).trace ++
        (if env.downloadOk then
          [.apiDownload (out ++ ["project_" ++ p ++ ".tar.gz"]),
           .fsWriteArchive (out ++ ["project_" ++ p ++ ".tar.gz"])]
         else
          [.apiDownload (out ++ ["project_" ++ p ++ ".tar.gz"]),
           .logError "Problem while downloading"]) ++
        [.fsWriteMetadata (out ++ ["project_" ++ p ++ ".tar.gz.json"])
          (collectMetadata proj)],
       .ok ()⟩ := by
    simp only [GitlabImportExport.export_project, hc]
    rw [hpoll, hp]
    simp only [hjson, hwrite]
    simp
  refine ⟨mem_collectMetadata_name proj nm hn, mem_collectMetadata_path proj p hp, ?_, ?_⟩
  · rw [hrun]
    have h1 : ([Event.apiCreateProjectExport, Event.apiStatusFetch]).count
        (Event.fsWriteMetadata (out ++ ["project_" ++ p ++ ".tar.gz.json"])
          (collectMetadata proj)) = 0 := by
      rw [List.count_eq_zero]
      simp
    have h2 : ((pollProjectExport env.statusAt env.pollErrorAt fl 0).trace).count
        (Event.fsWriteMetadata (out ++ ["project_" ++ p ++ ".tar.gz.json"])
          (collectMetadata proj)) = 0 := by
      rw [List.count_eq_zero]
      intro hmem
      rcases pollProjectExport_trace_mem env.statusAt env.pollErrorAt fl 0 _ hmem with h | h <;>
        simp at h
    have h3 : ∀ b : Bool,
        ((if b then
          [Event.apiDownload (out ++ ["project_" ++ p ++ ".tar.gz"]),
           Event.fsWriteArchive (out ++ ["project_" ++ p ++ ".tar.gz"])]
         else
          [Event.apiDownload (out ++ ["project_" ++ p ++ ".tar.gz"]),
           Event.logError "Problem while downloading"]) : List Event).count
        (Event.fsWriteMetadata (out ++ ["project_" ++ p ++ ".tar.gz.json"])
          (collectMetadata proj)) = 0 := by
      intro b
      cases b <;> (rw [List.count_eq_zero]; simp)
    simp [List.count_append, h1, h2, h3 env.downloadOk]
  · rw [hrun]

/-- Export environment whose archive download fails after a finished job. -/
def claim6Env : ProjectExportEnv := ⟨true, fun _ => "finished", none, false⟩

/-- The project exported in the failed-download scenario. -/
def claim6Proj : GitlabObject :=
  ⟨some 3, none, none, some "Svc", none, some "svc", some "grp/svc"⟩

/-- Witness for C6 at a concrete export whose download fails: the metadata
file is still written, with name and path entries. -/
theorem claim6_sidecar_metadata_witness :
    ("name", "Svc") ∈ collectMetadata claim6Proj ∧
    ("path", "svc") ∈ collectMetadata claim6Proj ∧
    (GitlabImportExport.export_project claim6Env claim6Proj ["out"] 5).trace.count
      (.fsWriteMetadata (["out"] ++ ["project_" ++ "svc" ++ ".tar.gz.json"])
        (collectMetadata claim6Proj)) = 1 ∧
    (GitlabImportExport.export_project claim6Env claim6Proj ["out"] 5).result = .ok () :=
  claim6_sidecar_metadata claim6Env claim6Proj ["out"] 5 "svc" "Svc" rfl rfl rfl (by decide)
